import Mathlib

/-!
Verification of the Spade Edge ingest service (TwitchScience/spade_edge)
against its natural-language specification.

The Go source is shallowly embedded: bytes are `Nat` values below 256,
Go strings are `List Char`, machine counters are `Nat` reduced modulo
`2 ^ 64` where the source uses `uint64`, and fallible operations return
`Option`/`Except`.  Sink outcomes (errors returned by the S3 and Kinesis
loggers) are passed in as parameters, since they depend on I/O.
-/

namespace SpadeEdge

/-! ## Events (scoop_protocol `spade.Event` as used by the handler) -/

/-- The event record assembled by `SpadeHandler.buildEvent`
(`requests/request_handler.go`). -/
structure Event where
  receivedAt : Nat
  clientIp : List Char
  xForwardedFor : List Char
  uuid : List Char
  data : List Char
  userAgent : List Char
  edgeType : List Char
  deriving Repr, DecidableEq

/-! ## EdgeLoggers: fan-out to the two sinks (`requests/request_handler.go`)

`EdgeLoggers.log` first checks the `closed` channel; if the loggers are
shutting down it returns an error at once.  Otherwise it calls
`S3EventLogger.Log` and then `KinesisEventLogger.Log` and returns an error
only when *both* returned errors.  We represent each sink's outcome for the
event as an `Option String` (`none` = the sink's `Log` returned `nil`). -/

/-- Embedding of `EdgeLoggers.log`: `closed` is whether the `closed` channel
has been closed, `s3Err`/`kinesisErr` are the results of the two sinks'
`Log` calls for this event. -/
def edgeLoggersLog (closed : Bool) (s3Err kinesisErr : Option String) :
    Option String :=
  if closed then some "Loggers are shutting down"
  else if s3Err.isSome && kinesisErr.isSome then
    some "Failed to store the event in any of the loggers"
  else none

/-- Embedding of `SpadeHandler.handleSpadeRequests`: `ExtractEvent` returned
`(hasEvent, statusCode)`; when an event was returned it is logged, and a
logging error turns the status into 500. -/
def handleSpadeRequests (closed : Bool) (s3Err kinesisErr : Option String)
    (hasEvent : Bool) (statusCode : Nat) : Nat :=
  if hasEvent then
    match edgeLoggersLog closed s3Err kinesisErr with
    | some _ => 500
    | none => statusCode
  else statusCode

/-- A status code in the 2xx range. -/
def is2xx (n : Nat) : Prop := 200 ≤ n ∧ n < 300

instance (n : Nat) : Decidable (is2xx n) := by
  unfold is2xx; infer_instance

/-! ## EdgeLoggers shutdown (`EdgeLoggers.Close`)

`Close` runs `close(e.closed)`, waits on the wait group, then closes the
Kinesis and S3 loggers.  In Go, `close` on an already-closed channel
panics, which we model by returning `none`. -/

/-- Shutdown-relevant state of an `EdgeLoggers` value: whether its `closed`
channel has been closed, and whether each child logger has been closed. -/
structure EdgeLoggersState where
  closed : Bool
  kinesisClosed : Bool
  s3Closed : Bool
  deriving Repr, DecidableEq

/-- Embedding of `EdgeLoggers.Close`.  `close(e.closed)` panics (`none`)
when the channel is already closed; otherwise the channel is marked closed
and both child loggers are closed. -/
def edgeLoggersClose (s : EdgeLoggersState) : Option EdgeLoggersState :=
  if s.closed then none
  else some { closed := true, kinesisClosed := true, s3Closed := true }

/-! ## Transparent pixel (`transparentPixel`, `writePixel`, `serve`) -/

/-- The byte literal `transparentPixel` from `requests/request_handler.go`. -/
def transparentPixel : List Nat :=
  [71, 73, 70, 56, 57, 97, 1, 0, 1, 0,
   128, 0, 0, 0, 0, 0, 255, 255, 255,
   33, 249, 4, 1, 0, 0, 0, 0, 44, 0,
   0, 0, 0, 1, 0, 1, 0, 0, 2, 1, 68, 0, 59]

/-- An HTTP response as observed by the client: status, the two headers the
pixel path sets, and the body bytes. -/
structure Response where
  status : Nat
  contentType : Option String
  cacheControl : Option String
  body : List Nat
  deriving Repr, DecidableEq

/-- Embedding of `writePixel`: sets `Content-Type` and `Cache-Control` and
writes the 43-byte GIF (the write itself is modelled as succeeding). -/
def writePixel : Response :=
  { status := 200
    contentType := some "image/gif"
    cacheControl := some "no-cache, max-age=0"
    body := transparentPixel }

/-- Embedding of `shouldWritePixel`: the query value of `img` equals `"1"`.
`query` maps a key to `url.Values.Get` of that key. -/
def shouldWritePixel (query : String → String) : Bool :=
  query "img" == "1"

/-- Embedding of the ingest arm of `SpadeHandler.serve`: after
`handleSpadeRequests` produced `status`, the pixel is written (and the
request returns 200) exactly when `img=1`; otherwise only the status is
written. -/
def serveTrack (query : String → String) (status : Nat) : Response :=
  if shouldWritePixel query then writePixel
  else { status := status, contentType := none, cacheControl := none, body := [] }

/-! ## Object sink (`loggers/s3.go`) -/

/-- Embedding of `s3Logger.Log`: format the event with `eventToStringFunc`;
on a formatting error return it without submitting anything; otherwise
submit the line to `uploadLogger.Log`, which returns no error.
`uploadFails` stands for any failure inside the rotating upload pipeline;
it is a parameter so we can prove the result does not depend on it.
The second component is the list of lines submitted to the pipeline. -/
def s3LoggerLog (eventToStringFunc : Event → Except String String)
    (e : Event) (uploadFails : Bool) : Except String Unit × List String :=
  match eventToStringFunc e with
  | Except.error err => (Except.error err, [])
  | Except.ok s => (Except.ok (), [s])

/-! ## UUID generation (`SpadeHandler.buildEvent`)

`buildEvent` increments the process-wide `eventCount` (a `uint64`, so the
value wraps modulo 2^64) and formats
`fmt.Sprintf("%s-%08x-%08x", instanceID, now.Unix(), count)`.
Go's %08x prints lowercase hexadecimal, zero-padded on the left to at
least eight digits. -/

/-- Lowercase hexadecimal digit character for a value below 16 (as printed
by Go's %x verb). -/
def hexDigitChar (n : Nat) : Char :=
  if n < 10 then Char.ofNat (48 + n) else Char.ofNat (87 + n)

/-- Little-endian list of base-16 digits of `n` (empty for 0). -/
def hexRev (n : Nat) : List Nat :=
  if n = 0 then [] else n % 16 :: hexRev (n / 16)
decreasing_by exact Nat.div_lt_self (Nat.pos_of_ne_zero (by assumption)) (by norm_num)

/-- Minimal lowercase hexadecimal rendering of `n` (Go `%x`). -/
def hexChars (n : Nat) : List Char :=
  if n = 0 then ['0'] else (hexRev n).reverse.map hexDigitChar

/-- Go `%08x`: hexadecimal, left-padded with zeros to at least 8 digits. -/
def hex8 (n : Nat) : List Char :=
  List.replicate (8 - (hexChars n).length) '0' ++ hexChars n

/-- The uuid string assembled by `SpadeHandler.buildEvent`:
`fmt.Sprintf("%s-%08x-%08x", s.instanceID, context.Now.Unix(), count)`. -/
def buildUUID (instanceID : List Char) (sec count : Nat) : List Char :=
  instanceID ++ '-' :: (hex8 sec ++ '-' :: hex8 count)

/-- The uuid of the `i`-th event (1-based) built by a process whose
`eventCount` started at zero: `atomic.AddUint64` has returned `i` modulo
2^64, and the request's timestamp was `ts i`. -/
def uuidAt (instanceID : List Char) (ts : Nat → Nat) (i : Nat) : List Char :=
  buildUUID instanceID (ts i) (i % 2 ^ 64)

/-- Value of a lowercase hexadecimal digit character (inverse of
`hexDigitChar`), used to read the counter field back out of a uuid. -/
def hexCharVal (c : Char) : Nat :=
  if 97 ≤ c.toNat then c.toNat - 87 else c.toNat - 48

/-- Interpret a big-endian list of hexadecimal digit characters. -/
def fromHex (l : List Char) : Nat :=
  l.foldl (fun a c => 16 * a + hexCharVal c) 0

/-- The segment of a string after its last dash (the counter field of a
uuid). -/
def lastSegment (l : List Char) : List Char :=
  (l.reverse.takeWhile (fun c => c != '-')).reverse

/-! ## Forwarded-for parsing (`parseLastForwarder`) -/

/-- The whitespace predicate of Go's `strings.TrimSpace`
(`unicode.IsSpace` restricted to the Latin-1 space characters). -/
def goIsSpace (c : Char) : Bool :=
  c == ' ' || c == '\t' || c == '\n' || c == Char.ofNat 11 ||
    c == Char.ofNat 12 || c == '\r' || c == Char.ofNat 133 || c == Char.ofNat 160

/-- Embedding of `strings.TrimSpace`: strip whitespace from both ends. -/
def trimSpace (l : List Char) : List Char :=
  ((l.dropWhile goIsSpace).reverse.dropWhile goIsSpace).reverse

/-- Embedding of `strings.LastIndex(header, ",")`: index of the last comma;
`none` stands for Go's -1. -/
def lastCommaIndex : List Char → Option Nat
  | [] => none
  | c :: rest =>
    match lastCommaIndex rest with
    | some k => some (k + 1)
    | none => if c = ',' then some 0 else none

/-- The `clientIP` substring chosen by `parseLastForwarder`:
`header[comma+1:]` when a comma was found (the guard
`comma < len(header)+1` is taken from the source), the whole header
otherwise. -/
def lastForwarderSlice (header : List Char) : List Char :=
  match lastCommaIndex header with
  | some comma =>
    if comma < header.length + 1 then header.drop (comma + 1) else header
  | none => header

/-- Embedding of `parseLastForwarder`: `net.ParseIP` applied to the trimmed
slice; the IP parser is abstracted as `parseIP`. -/
def parseLastForwarder {α : Type} (parseIP : List Char → α)
    (header : List Char) : α :=
  parseIP (trimSpace (lastForwarderSlice header))

/-- Modelled from the spec's words for comparison: the comma-separated
tokens of a header (`splitComma l` never is empty; a trailing comma yields
a final empty token). -/
def splitComma : List Char → List (List Char)
  | [] => [[]]
  | c :: rest =>
    if c = ',' then [] :: splitComma rest
    else
      match splitComma rest with
      | [] => [[c]]
      | t :: ts => (c :: t) :: ts

/-- Last element of a token list (empty-string default). -/
def lastTok : List (List Char) → List Char
  | [] => []
  | [t] => t
  | _ :: ts => lastTok ts

/-- Modelled from the spec's words: the last comma-separated token. -/
def lastToken (header : List Char) : List Char :=
  lastTok (splitComma header)

/-! ## Standard base64 (`encoding/base64` StdEncoding, as used by
`base64.StdEncoding.EncodeToString` in the split path and by consumers
decoding the produced events) -/

/-- Character of the standard base64 alphabet for a six-bit value. -/
def sextetChar (n : Nat) : Char :=
  if n < 26 then Char.ofNat (65 + n)
  else if n < 52 then Char.ofNat (97 + (n - 26))
  else if n < 62 then Char.ofNat (48 + (n - 52))
  else if n = 62 then '+'
  else '/'

/-- Standard base64 encoding with `=` padding, three input bytes per
four output characters. -/
def base64Encode : List Nat → List Char
  | [] => []
  | [a] => [sextetChar (a / 4), sextetChar (a % 4 * 16), '=', '=']
  | [a, b] => [sextetChar (a / 4), sextetChar (a % 4 * 16 + b / 16),
      sextetChar (b % 16 * 4), '=']
  | a :: b :: c :: rest =>
    sextetChar (a / 4) :: sextetChar (a % 4 * 16 + b / 16) ::
      sextetChar (b % 16 * 4 + c / 64) :: sextetChar (c % 64) ::
        base64Encode rest

/-- Six-bit value of a standard base64 alphabet character. -/
def sextetVal (c : Char) : Nat :=
  if 65 ≤ c.toNat ∧ c.toNat ≤ 90 then c.toNat - 65
  else if 97 ≤ c.toNat ∧ c.toNat ≤ 122 then c.toNat - 97 + 26
  else if 48 ≤ c.toNat ∧ c.toNat ≤ 57 then c.toNat - 48 + 52
  else if c = '+' then 62
  else 63

/-- Standard base64 decoding, four characters per three bytes, with `=`
padding cutting the final group short. -/
def base64Decode : List Char → List Nat
  | c1 :: c2 :: c3 :: c4 :: rest =>
    if c3 = '=' then [sextetVal c1 * 4 + sextetVal c2 / 16]
    else if c4 = '=' then
      [sextetVal c1 * 4 + sextetVal c2 / 16,
       sextetVal c2 % 16 * 16 + sextetVal c3 / 4]
    else
      (sextetVal c1 * 4 + sextetVal c2 / 16) ::
        (sextetVal c2 % 16 * 16 + sextetVal c3 / 4) ::
          (sextetVal c3 % 4 * 64 + sextetVal c4) :: base64Decode rest
  | _ => []

/-! ## Large-event split path (`SpadeHandler.ExtractEvent`) -/

/-- `maxBytesPerRequest = 500 * 1024` from the source. -/
def maxBytesPerRequest : Nat := 500 * 1024

/-- The per-element loop of the large-event split path: every JSON array
element is re-encoded as standard base64 and logged; an element whose
re-encoding exceeds the cap sets the status to 413; `ok i` is whether
`EdgeLoggers.log` succeeded for the i-th element.  Arguments after the
element list: element index, current statusCode, current successCount.
Returns final statusCode, successCount and the data of the events that
were enqueued successfully. -/
def splitLoop (ok : Nat → Bool) : List (List Nat) → Nat → Nat → Nat →
    Nat × Nat × List (List Char)
  | [], _, status, succ => (status, succ, [])
  | e :: rest, i, status, succ =>
    let encEvent := base64Encode e
    let status' := if encEvent.length > maxBytesPerRequest then 413 else status
    let succ' := if ok i then succ + 1 else succ
    let r := splitLoop ok rest (i + 1) status' succ'
    (r.1, r.2.1, if ok i then encEvent :: r.2.2 else r.2.2)

/-- Embedding of the large-event arm of `ExtractEvent` after the JSON array
`events` was parsed: when large-event handling is disabled the request is
rejected with 413 and nothing is enqueued; otherwise the loop runs with
initial status `http.StatusNoContent`, and a request with zero successful
elements is turned into a 500. -/
def extractLargeEvents (handleLargeEvents : Bool) (events : List (List Nat))
    (ok : Nat → Bool) : Nat × List (List Char) :=
  if handleLargeEvents then
    let r := splitLoop ok events 0 204 0
    (if r.2.1 = 0 then 500 else r.1, r.2.2)
  else (413, [])

/-- Whether some element's standard-base64 re-encoding still exceeds the
500 KiB cap (spec-side description of the 413 condition). -/
def anyOversize (events : List (List Nat)) : Bool :=
  events.any fun e => decide ((base64Encode e).length > maxBytesPerRequest)

/-- Number of elements whose `EdgeLoggers.log` call succeeded, starting at
element index `i` (spec-side). -/
def countOks (ok : Nat → Bool) (i : Nat) : List (List Nat) → Nat
  | [] => 0
  | _ :: rest => (if ok i then 1 else 0) + countOks ok (i + 1) rest

/-- Data of the events the split path wrote successfully, in order
(spec-side). -/
def writtenEvents (ok : Nat → Bool) (i : Nat) :
    List (List Nat) → List (List Char)
  | [] => []
  | e :: rest =>
    if ok i then base64Encode e :: writtenEvents ok (i + 1) rest
    else writtenEvents ok (i + 1) rest

/-! ## Raw POST body handling (`ExtractEvent`, POST with no data field) -/

/-- The byte literal `dataFlag = []byte("data=")` from the source. -/
def dataFlag : List Nat := [100, 97, 116, 97, 61]

/-- The backing array of the slice returned by `ioutil.ReadAll`: the body
bytes followed by spare capacity.  `ReadAll` reads through a buffer whose
backing array is freshly allocated with capacity at least 512 and only ever
grows into freshly zeroed arrays, so the bytes between the slice length and
its capacity are zero. -/
def readAllBacking (body : List Nat) : List Nat :=
  body ++ List.replicate 512 0

/-- Go slice expression `b[:n]`: in bounds (and reading zero-filled spare
capacity past `len(b)`) when `n` does not exceed the capacity, a bounds
panic (`none`) otherwise. -/
def goSliceTake (backing : List Nat) (n : Nat) : Option (List Nat) :=
  if n ≤ backing.length then some (backing.take n) else none

/-- Embedding of the raw-body arm of `ExtractEvent` (POST whose parsed form
has no data field): evaluate `bytes.Equal(b[:5], dataFlag)` over the
`ReadAll` slice; on a match set `bad_client` and strip the five bytes; a
resulting empty payload answers 400.  Result: `none` for a slice-bounds
panic, otherwise (bad_client, payload, early status). -/
def postRawBody (body : List Nat) : Option (Bool × List Nat × Option Nat) :=
  match goSliceTake (readAllBacking body) 5 with
  | none => none
  | some first5 =>
    if first5 = dataFlag then
      some (true, body.drop 5, if body.drop 5 = [] then some 400 else none)
    else
      some (false, body, if body = [] then some 400 else none)

/-! ## Theorems -/

/-- Helper: a 2xx status out of `handleSpadeRequests` on a built event means
at least one of the two sinks' `Log` calls returned no error. -/
theorem at_least_one_sink_of_2xx (closed : Bool)
    (s3Err kinesisErr : Option String) (st : Nat)
    (h : is2xx (handleSpadeRequests closed s3Err kinesisErr true st)) :
    s3Err = none ∨ kinesisErr = none := by
  cases s3Err with
  | none => exact Or.inl rfl
  | some a =>
    cases kinesisErr with
    | none => exact Or.inr rfl
    | some b =>
      exfalso
      cases closed <;>
        simp [handleSpadeRequests, edgeLoggersLog, is2xx] at h

/-- C1 counterexample: with the loggers open, an event whose S3 `Log`
succeeded but whose Kinesis `Log` failed still gets status 204 (a 2xx),
even though one of the two sinks failed to enqueue it. -/
theorem C1_counterexample :
    handleSpadeRequests false none (some "kinesis enqueue failed") true 204 = 204 ∧
    is2xx 204 ∧
    (some "kinesis enqueue failed" : Option String).isSome = true :=
  ⟨rfl, by decide, rfl⟩

/-- C1 (amended): for every event accepted by the ingest handler, either at
least one of the two sinks enqueued the event or the request returns a
non-2xx status; the handler never returns 2xx when both sinks failed to
enqueue the event (but may return 2xx when exactly one failed). -/
theorem C1_amended_at_least_one_sink (closed : Bool)
    (s3Err kinesisErr : Option String) (st : Nat)
    (h : is2xx (handleSpadeRequests closed s3Err kinesisErr true st)) :
    s3Err = none ∨ kinesisErr = none :=
  at_least_one_sink_of_2xx closed s3Err kinesisErr st h

/-- Witness for C1 (amended) at a concrete input. -/
theorem C1_amended_witness :
    (none : Option String) = none ∨
      (some "kinesis enqueue failed" : Option String) = none :=
  C1_amended_at_least_one_sink false none (some "kinesis enqueue failed") 204
    (by decide)

/-- C2: a 2xx answer after building an event implies at least one sink
successfully enqueued it; and (while the loggers are not shutting down)
`EdgeLoggers.log` returns an error exactly when both the S3 and Kinesis
loggers fail, in which case the handler returns 500. -/
theorem C2_log_error_iff_both_sinks_fail (closed : Bool)
    (s3Err kinesisErr : Option String) (st : Nat) (hclosed : closed = false) :
    (is2xx (handleSpadeRequests closed s3Err kinesisErr true st) →
      s3Err = none ∨ kinesisErr = none) ∧
    ((edgeLoggersLog closed s3Err kinesisErr).isSome ↔
      (s3Err.isSome ∧ kinesisErr.isSome)) ∧
    ((edgeLoggersLog closed s3Err kinesisErr).isSome →
      handleSpadeRequests closed s3Err kinesisErr true st = 500) := by
  subst hclosed
  refine ⟨fun h => at_least_one_sink_of_2xx false s3Err kinesisErr st h, ?_, ?_⟩ <;>
    cases s3Err <;> cases kinesisErr <;>
      simp [edgeLoggersLog, handleSpadeRequests]

/-- Witness for C2 at a concrete input: loggers open, S3 failing, Kinesis
succeeding. -/
theorem C2_witness :
    (is2xx (handleSpadeRequests false (some "s3 enqueue failed") none true 204) →
      (some "s3 enqueue failed" : Option String) = none ∨
        (none : Option String) = none) ∧
    ((edgeLoggersLog false (some "s3 enqueue failed") none).isSome ↔
      ((some "s3 enqueue failed" : Option String).isSome ∧
        (none : Option String).isSome)) ∧
    ((edgeLoggersLog false (some "s3 enqueue failed") none).isSome →
      handleSpadeRequests false (some "s3 enqueue failed") none true 204 = 500) :=
  C2_log_error_iff_both_sinks_fail false (some "s3 enqueue failed") none 204 rfl

/-- C3 counterexample: on a freshly opened `EdgeLoggers`, the first `Close`
terminates normally but the second `Close` closes an already-closed channel
and panics, so the sequence Close(); Close() does not terminate normally. -/
theorem C3_counterexample :
    (edgeLoggersClose ⟨false, false, false⟩).bind edgeLoggersClose = none ∧
    edgeLoggersClose ⟨false, false, false⟩ ≠ none := by
  constructor
  · rfl
  · intro h
    simp [edgeLoggersClose] at h

/-- C3 (amended): on an `EdgeLoggers` whose `closed` channel is still open,
`Close` terminates normally exactly once; a second `Close` panics (Go
`close` of an already-closed channel), so `Close` is not idempotent. -/
theorem C3_amended_close_once (s : EdgeLoggersState) (h : s.closed = false) :
    (edgeLoggersClose s).isSome = true ∧
    (edgeLoggersClose s).bind edgeLoggersClose = none := by
  simp [edgeLoggersClose, h]

/-- Witness for C3 (amended) at a concrete input. -/
theorem C3_amended_witness :
    (edgeLoggersClose ⟨false, true, true⟩).isSome = true ∧
    (edgeLoggersClose ⟨false, true, true⟩).bind edgeLoggersClose = none :=
  C3_amended_close_once ⟨false, true, true⟩ rfl

/-- C4 counterexample: on a request with img=1 the response body is the
source's `transparentPixel` literal, which has 42 bytes, not 43. -/
theorem C4_counterexample :
    (serveTrack (fun _ => "1") 204).body.length = 42 ∧ (42 : Nat) ≠ 43 := by
  decide

/-- C4 (amended): when the query string carries img=1 the ingest response
is a 200 with Content-Type image/gif, Cache-Control no-cache, max-age=0 and
a body that is exactly the source's 42-byte transparent GIF starting
47 49 46 38 39 61; without img=1 a fully successful ingest (event built,
at least one sink enqueued it) answers 204. -/
theorem C4_pixel_or_204 (query : String → String) (st : Nat)
    (s3Err kinesisErr : Option String) :
    (query "img" = "1" →
      serveTrack query st =
        { status := 200, contentType := some "image/gif",
          cacheControl := some "no-cache, max-age=0",
          body := transparentPixel } ∧
      transparentPixel.length = 42 ∧
      transparentPixel.take 6 = [0x47, 0x49, 0x46, 0x38, 0x39, 0x61]) ∧
    (query "img" ≠ "1" → (s3Err = none ∨ kinesisErr = none) →
      (serveTrack query
        (handleSpadeRequests false s3Err kinesisErr true 204)).status = 204) := by
  constructor
  · intro h
    refine ⟨?_, by decide, by decide⟩
    simp [serveTrack, shouldWritePixel, writePixel, h]
  · intro h hok
    have hq : (query "img" == "1") = false := by
      simp [h]
    rcases hok with h1 | h1
    · subst h1
      cases kinesisErr <;>
        simp [serveTrack, shouldWritePixel, hq, handleSpadeRequests,
          edgeLoggersLog]
    · subst h1
      cases s3Err <;>
        simp [serveTrack, shouldWritePixel, hq, handleSpadeRequests,
          edgeLoggersLog]

/-- Witness for C4 at concrete inputs: one request with img=1, one without. -/
theorem C4_witness :
    serveTrack (fun _ => "1") 204 =
      { status := 200, contentType := some "image/gif",
        cacheControl := some "no-cache, max-age=0",
        body := transparentPixel } ∧
    (serveTrack (fun _ => "0")
      (handleSpadeRequests false none none true 204)).status = 204 :=
  ⟨((C4_pixel_or_204 (fun _ => "1") 204 none none).1 rfl).1,
   (C4_pixel_or_204 (fun _ => "0") 204 none none).2 (by decide) (Or.inl rfl)⟩

/-- C10: the Object Sink's `Log` succeeds exactly when the formatting
function succeeds, passes a formatting error through verbatim, submits the
formatted line exactly when formatting succeeds, and its result does not
depend on whether the rotating upload pipeline fails. -/
theorem C10_log_error_iff_format_error (f : Event → Except String String)
    (e : Event) (uploadFails uploadFails' : Bool) :
    ((s3LoggerLog f e uploadFails).1 = Except.ok () ↔ ∃ s, f e = Except.ok s) ∧
    (∀ err, (s3LoggerLog f e uploadFails).1 = Except.error err ↔
      f e = Except.error err) ∧
    s3LoggerLog f e uploadFails = s3LoggerLog f e uploadFails' ∧
    ((s3LoggerLog f e uploadFails).2 = [] ↔ ∃ err, f e = Except.error err) := by
  cases h : f e <;> simp [s3LoggerLog, h]

/-! ### Hexadecimal rendering facts -/

/-- Every digit produced by `hexRev` is below 16. -/
theorem hexRev_mem_lt (n : Nat) : ∀ d ∈ hexRev n, d < 16 := by
  induction n using Nat.strong_induction_on with
  | _ n ih =>
    rw [hexRev]
    split
    · simp
    · intro d hd
      rcases List.mem_cons.mp hd with h | h
      · subst h; exact Nat.mod_lt _ (by norm_num)
      · exact ih (n / 16)
          (Nat.div_lt_self (Nat.pos_of_ne_zero (by assumption)) (by norm_num)) d h

/-- Reading a hexadecimal digit character back gives the digit. -/
theorem hexCharVal_hexDigitChar : ∀ d < 16, hexCharVal (hexDigitChar d) = d := by
  decide

/-- Hexadecimal digit characters are never a dash. -/
theorem hexDigitChar_ne_dash : ∀ d < 16, hexDigitChar d ≠ '-' := by
  decide

/-- No character of `hex8 n` is a dash. -/
theorem hex8_ne_dash (n : Nat) : ∀ c ∈ hex8 n, c ≠ '-' := by
  intro c hc
  rcases List.mem_append.mp hc with h | h
  · rw [List.eq_of_mem_replicate h]
    decide
  · unfold hexChars at h
    split at h
    · simp at h; subst h; decide
    · rcases List.mem_map.mp h with ⟨d, hd, rfl⟩
      exact hexDigitChar_ne_dash d (hexRev_mem_lt n d (List.mem_reverse.mp hd))

/-- Folding the digit interpretation over the reversed digit list of `n`
recovers `n`. -/
theorem foldl_hexRev_reverse (n : Nat) :
    List.foldl (fun a d => 16 * a + d) 0 (hexRev n).reverse = n := by
  induction n using Nat.strong_induction_on with
  | _ n ih =>
    rw [hexRev]
    split
    · simpa using (by assumption : n = 0).symm
    · rw [List.reverse_cons, List.foldl_append,
        ih (n / 16) (Nat.div_lt_self (Nat.pos_of_ne_zero (by assumption)) (by norm_num))]
      simp [Nat.div_add_mod]

/-- Character-level folding agrees with digit-level folding when every
digit is below 16. -/
theorem foldl_map_hexDigitChar (l : List Nat) (acc : Nat)
    (h : ∀ d ∈ l, d < 16) :
    List.foldl (fun a c => 16 * a + hexCharVal c) acc (l.map hexDigitChar) =
      List.foldl (fun a d => 16 * a + d) acc l := by
  induction l generalizing acc with
  | nil => rfl
  | cons d rest ih =>
    simp only [List.map_cons, List.foldl_cons]
    rw [hexCharVal_hexDigitChar d (h d (List.mem_cons_self d rest))]
    exact ih _ fun x hx => h x (List.mem_cons_of_mem d hx)

/-- Leading zero characters do not change the value read from zero. -/
theorem foldl_replicate_zero_char (k : Nat) :
    List.foldl (fun a c => 16 * a + hexCharVal c) 0 (List.replicate k '0') = 0 := by
  induction k with
  | zero => rfl
  | succ k ih => simpa [List.replicate_succ, hexCharVal] using ih

/-- Reading `hexChars n` back gives `n`. -/
theorem fromHex_hexChars (n : Nat) : fromHex (hexChars n) = n := by
  unfold fromHex hexChars
  split
  · subst (by assumption : n = 0); decide
  · rw [foldl_map_hexDigitChar _ _ fun d hd =>
      hexRev_mem_lt n d (List.mem_reverse.mp hd)]
    exact foldl_hexRev_reverse n

/-- Reading `hex8 n` back gives `n`: the zero padding is invisible. -/
theorem fromHex_hex8 (n : Nat) : fromHex (hex8 n) = n := by
  unfold hex8 fromHex
  rw [List.foldl_append, foldl_replicate_zero_char]
  exact fromHex_hexChars n

/-- `hex8` is injective. -/
theorem hex8_injective {a b : Nat} (h : hex8 a = hex8 b) : a = b := by
  have := congrArg fromHex h
  rwa [fromHex_hex8, fromHex_hex8] at this

/-! ### Extracting the counter field from a uuid string -/

/-- `takeWhile` passes over a block that satisfies the predicate. -/
theorem takeWhile_append_of_forall (p : Char → Bool) (a b : List Char)
    (h : ∀ x ∈ a, p x = true) :
    (a ++ b).takeWhile p = a ++ b.takeWhile p := by
  induction a with
  | nil => rfl
  | cons x rest ih =>
    simp only [List.cons_append, List.takeWhile_cons,
      h x (List.mem_cons_self x rest)]
    rw [ih fun y hy => h y (List.mem_cons_of_mem x hy)]
    simp

/-- The segment after the last dash of `pre ++ '-' :: seg` is `seg`
whenever `seg` itself contains no dash. -/
theorem lastSegment_append (pre seg : List Char)
    (h : ∀ c ∈ seg, c ≠ '-') : lastSegment (pre ++ '-' :: seg) = seg := by
  unfold lastSegment
  have hrev : (pre ++ '-' :: seg).reverse = seg.reverse ++ '-' :: pre.reverse := by
    simp
  rw [hrev, takeWhile_append_of_forall _ _ _
    (fun x hx => by
      have : x ≠ '-' := h x (List.mem_reverse.mp hx)
      simpa using this)]
  simp [List.takeWhile_cons]

/-- Two uuids built with the same instance id but different counter values
are different strings, whatever the timestamps were. -/
theorem buildUUID_count_injective (id : List Char) (s1 s2 c1 c2 : Nat)
    (h : buildUUID id s1 c1 = buildUUID id s2 c2) : c1 = c2 := by
  have h1 : lastSegment (buildUUID id s1 c1) = hex8 c1 := by
    unfold buildUUID
    rw [show id ++ '-' :: (hex8 s1 ++ '-' :: hex8 c1) =
      (id ++ '-' :: hex8 s1) ++ '-' :: hex8 c1 by simp]
    exact lastSegment_append _ _ (hex8_ne_dash c1)
  have h2 : lastSegment (buildUUID id s2 c2) = hex8 c2 := by
    unfold buildUUID
    rw [show id ++ '-' :: (hex8 s2 ++ '-' :: hex8 c2) =
      (id ++ '-' :: hex8 s2) ++ '-' :: hex8 c2 by simp]
    exact lastSegment_append _ _ (hex8_ne_dash c2)
  exact hex8_injective (h1 ▸ h2 ▸ congrArg lastSegment h)

/-- C5 counterexample: the process-wide counter lives in a `uint64`, so it
wraps modulo 2^64: in a run of 2^64 + 1 events all timestamped in second
zero, the first and the last event carry the same uuid, so the set of
emitted UUIDs has cardinality below N and the counter did not strictly
increase. -/
theorem C5_counterexample :
    uuidAt ['i'] (fun _ => 0) 1 = uuidAt ['i'] (fun _ => 0) (2 ^ 64 + 1) ∧
    (1 : Nat) ≠ 2 ^ 64 + 1 := by
  constructor
  · unfold uuidAt
    have h : (2 ^ 64 + 1) % 2 ^ 64 = 1 % 2 ^ 64 := by omega
    rw [h]
  · omega

/-- C5 (amended): the `i`-th built event's uuid is
instance_id, dash, eight-or-more hex digits of the unix seconds, dash,
eight-or-more hex digits of the counter, where the counter is the event
index modulo 2^64 (the `uint64` wraps); the counter strictly increases
while the run stays below 2^64 events, and within any run of at most 2^64
events all uuids are pairwise distinct. -/
theorem C5_amended_uuid_unique (id : List Char) (ts : Nat → Nat) (i j : Nat)
    (h1 : 1 ≤ i) (h2 : i < j) (h3 : j ≤ 2 ^ 64) :
    uuidAt id ts i = id ++ '-' :: (hex8 (ts i) ++ '-' :: hex8 (i % 2 ^ 64)) ∧
    (j < 2 ^ 64 → i % 2 ^ 64 < j % 2 ^ 64) ∧
    uuidAt id ts i ≠ uuidAt id ts j := by
  refine ⟨rfl, ?_, ?_⟩
  · intro hj
    have : i % 2 ^ 64 = i := Nat.mod_eq_of_lt (lt_trans h2 hj)
    have : j % 2 ^ 64 = j := Nat.mod_eq_of_lt hj
    omega
  · intro h
    have := buildUUID_count_injective id (ts i) (ts j) (i % 2 ^ 64) (j % 2 ^ 64) h
    omega

/-- Witness for C5 (amended) at concrete inputs: events 1 and 2 of a run. -/
theorem C5_amended_witness :
    uuidAt ['i'] (fun _ => 7) 1 =
      ['i'] ++ '-' :: (hex8 7 ++ '-' :: hex8 (1 % 2 ^ 64)) ∧
    (2 < 2 ^ 64 → 1 % 2 ^ 64 < 2 % 2 ^ 64) ∧
    uuidAt ['i'] (fun _ => 7) 1 ≠ uuidAt ['i'] (fun _ => 7) 2 :=
  C5_amended_uuid_unique ['i'] (fun _ => 7) 1 2 (by norm_num) (by norm_num)
    (by norm_num)

/-! ### Forwarded-for facts -/

/-- `splitComma` always produces at least one token. -/
theorem splitComma_ne_nil (l : List Char) : splitComma l ≠ [] := by
  cases l with
  | nil => simp [splitComma]
  | cons c rest =>
    unfold splitComma
    split
    · simp
    · cases h : splitComma rest <;> simp

/-- A header with no comma is a single token. -/
theorem splitComma_of_no_comma (l : List Char) (h : lastCommaIndex l = none) :
    splitComma l = [l] := by
  induction l with
  | nil => rfl
  | cons c rest ih =>
    unfold lastCommaIndex at h
    rcases hr : lastCommaIndex rest with _ | k
    · rw [hr] at h
      have hc : ¬ c = ',' := by
        intro hc
        simp [hc] at h
      unfold splitComma
      rw [if_neg hc, ih hr]
    · rw [hr] at h
      simp at h


/-- A found comma index is a position inside the header. -/
theorem lastCommaIndex_lt_length (l : List Char) (k : Nat)
    (h : lastCommaIndex l = some k) : k < l.length := by
  induction l generalizing k with
  | nil => simp [lastCommaIndex] at h
  | cons c rest ih =>
    rcases hr : lastCommaIndex rest with _ | k'
    · simp only [lastCommaIndex, hr] at h
      split at h
      · simp at h
        simp only [List.length_cons]
        omega
      · simp at h
    · simp only [lastCommaIndex, hr, Option.some.injEq] at h
      have := ih k' hr
      simp only [List.length_cons]
      omega

/-- A header that contains a comma splits into at least two tokens. -/
theorem two_le_splitComma_length (l : List Char) (k : Nat)
    (h : lastCommaIndex l = some k) : 2 ≤ (splitComma l).length := by
  induction l generalizing k with
  | nil => simp [lastCommaIndex] at h
  | cons c rest ih =>
    rcases hr : lastCommaIndex rest with _ | k'
    · simp only [lastCommaIndex, hr] at h
      have hc : c = ',' := by
        by_contra hc
        rw [if_neg hc] at h
        simp at h
      simp only [splitComma, if_pos hc, List.length_cons]
      have h0 : 0 < (splitComma rest).length :=
        List.length_pos.mpr (splitComma_ne_nil rest)
      omega
    · have h2 := ih k' hr
      simp only [splitComma]
      split
      · simp only [List.length_cons]
        omega
      · cases hs : splitComma rest with
        | nil => exact absurd hs (splitComma_ne_nil rest)
        | cons t ts =>
          rw [hs] at h2
          show 2 ≤ ((c :: t) :: ts).length
          simp only [List.length_cons] at h2 ⊢
          omega

/-- Dropping a leading token does not change the last token of a
multi-token list. -/
theorem lastTok_cons_of_ne_nil (t : List Char) {ts : List (List Char)}
    (h : ts ≠ []) : lastTok (t :: ts) = lastTok ts := by
  cases ts with
  | nil => exact absurd rfl h
  | cons u us => rfl

/-- `lastForwarderSlice` skips a leading character when a comma occurs
later. -/
theorem lastForwarderSlice_cons_of_some (c : Char) (rest : List Char)
    (k : Nat) (hr : lastCommaIndex rest = some k) :
    lastForwarderSlice (c :: rest) = lastForwarderSlice rest := by
  have hk := lastCommaIndex_lt_length rest k hr
  unfold lastForwarderSlice
  simp only [lastCommaIndex, hr, List.length_cons]
  rw [if_pos (by omega), if_pos (by omega)]
  simp

/-- `lastForwarderSlice` of a comma followed by a comma-free tail is the
tail. -/
theorem lastForwarderSlice_comma_of_none (rest : List Char)
    (hr : lastCommaIndex rest = none) :
    lastForwarderSlice (',' :: rest) = rest := by
  unfold lastForwarderSlice
  simp only [lastCommaIndex, hr, if_pos rfl]
  simp

/-- `lastForwarderSlice` of a comma-free header is the whole header. -/
theorem lastForwarderSlice_of_none (c : Char) (rest : List Char)
    (hr : lastCommaIndex rest = none) (hc : c ≠ ',') :
    lastForwarderSlice (c :: rest) = c :: rest := by
  unfold lastForwarderSlice
  simp only [lastCommaIndex, hr, if_neg hc]

/-- `lastToken` skips a leading character when a comma occurs later. -/
theorem lastToken_cons_of_some (c : Char) (rest : List Char) (k : Nat)
    (hr : lastCommaIndex rest = some k) :
    lastToken (c :: rest) = lastToken rest := by
  unfold lastToken
  have h2 := two_le_splitComma_length rest k hr
  by_cases hc : c = ','
  · simp only [splitComma, if_pos hc]
    exact lastTok_cons_of_ne_nil _ (splitComma_ne_nil rest)
  · simp only [splitComma, if_neg hc]
    cases hs : splitComma rest with
    | nil => exact absurd hs (splitComma_ne_nil rest)
    | cons t ts =>
      rw [hs] at h2
      cases ts with
      | nil => simp at h2
      | cons u us =>
        show lastTok ((c :: t) :: u :: us) = lastTok (t :: u :: us)
        rfl

/-- `lastToken` of a comma followed by a comma-free tail is the tail. -/
theorem lastToken_comma_of_none (rest : List Char)
    (hr : lastCommaIndex rest = none) : lastToken (',' :: rest) = rest := by
  unfold lastToken
  simp only [splitComma, if_pos rfl]
  rw [splitComma_of_no_comma rest hr]
  rfl

/-- `lastToken` of a comma-free header is the whole header. -/
theorem lastToken_of_none (c : Char) (rest : List Char)
    (hr : lastCommaIndex rest = none) (hc : c ≠ ',') :
    lastToken (c :: rest) = c :: rest := by
  unfold lastToken
  simp only [splitComma, if_neg hc]
  rw [splitComma_of_no_comma rest hr]
  rfl

/-- The slice taken by `parseLastForwarder` is the last comma-separated
token of the header. -/
theorem lastForwarderSlice_eq_lastToken (l : List Char) :
    lastForwarderSlice l = lastToken l := by
  induction l with
  | nil => rfl
  | cons c rest ih =>
    rcases hr : lastCommaIndex rest with _ | k
    · by_cases hc : c = ','
      · subst hc
        rw [lastForwarderSlice_comma_of_none rest hr,
          lastToken_comma_of_none rest hr]
      · rw [lastForwarderSlice_of_none c rest hr hc,
          lastToken_of_none c rest hr hc]
    · rw [lastForwarderSlice_cons_of_some c rest k hr,
        lastToken_cons_of_some c rest k hr, ih]

/-- The last comma index of a header ending in a comma is its final
position. -/
theorem lastCommaIndex_append_comma (l : List Char) :
    lastCommaIndex (l ++ [',']) = some l.length := by
  induction l with
  | nil => rfl
  | cons c rest ih =>
    rw [List.cons_append]
    simp only [lastCommaIndex, ih, List.length_cons]

/-- C6: the resolved client ip is the ip parser applied to the trimmed last
comma-separated token of the forwarded-for header (the whole header when it
has no comma), and a header ending in a comma has the empty string as its
last token. -/
theorem C6_last_forwarder_token {α : Type} (parseIP : List Char → α)
    (header : List Char) :
    parseLastForwarder parseIP header =
      parseIP (trimSpace (lastToken header)) ∧
    (∀ h : List Char, lastToken (h ++ [',']) = []) := by
  constructor
  · unfold parseLastForwarder
    rw [lastForwarderSlice_eq_lastToken]
  · intro h
    rw [← lastForwarderSlice_eq_lastToken]
    unfold lastForwarderSlice
    rw [lastCommaIndex_append_comma]
    simp
    omega

/-! ### Split path (large events) -/

/-- Closed form of the split-path loop: the final status is 413 exactly
when some element re-encodes oversize, successes add up, and the written
events are the successfully logged ones. -/
theorem splitLoop_spec (ok : Nat → Bool) (es : List (List Nat)) :
    ∀ i status succ : Nat,
    splitLoop ok es i status succ =
      ((if anyOversize es then 413 else status),
       succ + countOks ok i es, writtenEvents ok i es) := by
  induction es with
  | nil =>
    intro i status succ
    simp [splitLoop, anyOversize, countOks, writtenEvents]
  | cons e rest ih =>
    intro i status succ
    simp only [splitLoop, ih, anyOversize, List.any_cons, countOks,
      writtenEvents]
    by_cases hov : (base64Encode e).length > maxBytesPerRequest <;>
      by_cases hok : ok i <;>
        simp [hov, hok, anyOversize] <;> omega

/-- C7: with large-event handling disabled the split path answers 413 and
enqueues nothing; enabled, it answers 500 when no element was logged
successfully, 413 when at least one succeeded but some element re-encodes
above 500 KiB (the successfully written events standing), and 204 when at
least one succeeded and no element is oversize; the written events are
exactly the successfully logged ones. -/
theorem C7_split_path_statuses (events : List (List Nat)) (ok : Nat → Bool) :
    extractLargeEvents false events ok = (413, []) ∧
    (extractLargeEvents true events ok).1 =
      (if countOks ok 0 events = 0 then 500
       else if anyOversize events then 413 else 204) ∧
    (extractLargeEvents true events ok).2 = writtenEvents ok 0 events := by
  refine ⟨rfl, ?_, ?_⟩ <;> simp [extractLargeEvents, splitLoop_spec]

/-! ### Base64 round trip -/

/-- Decoding a base64 alphabet character recovers the six-bit value. -/
theorem sextetVal_sextetChar : ∀ x < 64, sextetVal (sextetChar x) = x := by
  decide

/-- Base64 alphabet characters are never the padding character. -/
theorem sextetChar_ne_pad : ∀ x < 64, sextetChar x ≠ '=' := by
  decide

/-- Decoding a fully padded final group yields one byte. -/
theorem base64Decode_two_pads (c1 c2 : Char) :
    base64Decode [c1, c2, '=', '='] =
      [sextetVal c1 * 4 + sextetVal c2 / 16] := rfl

/-- Decoding a group with one padding character yields two bytes. -/
theorem base64Decode_one_pad (c1 c2 c3 : Char) (h : c3 ≠ '=') :
    base64Decode [c1, c2, c3, '='] =
      [sextetVal c1 * 4 + sextetVal c2 / 16,
       sextetVal c2 % 16 * 16 + sextetVal c3 / 4] := by
  simp only [base64Decode]
  rw [if_neg h]
  simp

/-- Decoding an unpadded group yields three bytes and continues. -/
theorem base64Decode_no_pad (c1 c2 c3 c4 : Char) (rest : List Char)
    (h3 : c3 ≠ '=') (h4 : c4 ≠ '=') :
    base64Decode (c1 :: c2 :: c3 :: c4 :: rest) =
      (sextetVal c1 * 4 + sextetVal c2 / 16) ::
        (sextetVal c2 % 16 * 16 + sextetVal c3 / 4) ::
          (sextetVal c3 % 4 * 64 + sextetVal c4) :: base64Decode rest := by
  simp only [base64Decode]
  rw [if_neg h3, if_neg h4]

/-- Standard base64 decoding inverts standard base64 encoding on byte
lists. -/
theorem base64_roundtrip : ∀ bs : List Nat, (∀ b ∈ bs, b < 256) →
    base64Decode (base64Encode bs) = bs
  | [] => fun _ => rfl
  | [a] => fun h => by
    have ha : a < 256 := h a (by simp)
    simp only [base64Encode]
    rw [base64Decode_two_pads, sextetVal_sextetChar (a / 4) (by omega),
      sextetVal_sextetChar (a % 4 * 16) (by omega)]
    simp only [List.cons.injEq, and_true]
    omega
  | [a, b] => fun h => by
    have ha : a < 256 := h a (by simp)
    have hb : b < 256 := h b (by simp)
    simp only [base64Encode]
    rw [base64Decode_one_pad _ _ _ (sextetChar_ne_pad (b % 16 * 4) (by omega)),
      sextetVal_sextetChar (a / 4) (by omega),
      sextetVal_sextetChar (a % 4 * 16 + b / 16) (by omega),
      sextetVal_sextetChar (b % 16 * 4) (by omega)]
    simp only [List.cons.injEq, and_true]
    refine ⟨by omega, by omega⟩
  | a :: b :: c :: rest => fun h => by
    have ha : a < 256 := h a (by simp)
    have hb : b < 256 := h b (by simp)
    have hc : c < 256 := h c (by simp)
    have ih := base64_roundtrip rest fun x hx => h x (by simp [hx])
    simp only [base64Encode]
    rw [base64Decode_no_pad _ _ _ _ _
        (sextetChar_ne_pad (b % 16 * 4 + c / 64) (by omega))
        (sextetChar_ne_pad (c % 64) (by omega)),
      sextetVal_sextetChar (a / 4) (by omega),
      sextetVal_sextetChar (a % 4 * 16 + b / 16) (by omega),
      sextetVal_sextetChar (b % 16 * 4 + c / 64) (by omega),
      sextetVal_sextetChar (c % 64) (by omega), ih]
    simp only [List.cons.injEq, and_true]
    refine ⟨by omega, by omega, by omega⟩

/-- When every log call succeeds, the split path writes the base64
re-encoding of every element, in order. -/
theorem writtenEvents_all_ok (es : List (List Nat)) :
    ∀ i : Nat, writtenEvents (fun _ => true) i es = es.map base64Encode := by
  induction es with
  | nil => intro i; rfl
  | cons e rest ih => intro i; simp [writtenEvents, ih]

/-- C8: when every element of the JSON array is logged successfully, base64
decoding the data of the events produced by the split path reproduces the
elements of the original array, in order. -/
theorem C8_split_roundtrip (events : List (List Nat))
    (h : ∀ e ∈ events, ∀ b ∈ e, b < 256) :
    ((extractLargeEvents true events (fun _ => true)).2).map base64Decode =
      events := by
  have h2 : (extractLargeEvents true events (fun _ => true)).2 =
      writtenEvents (fun _ => true) 0 events := by
    simp [extractLargeEvents, splitLoop_spec]
  rw [h2, writtenEvents_all_ok events 0, List.map_map]
  have hmap : ∀ e ∈ events, (base64Decode ∘ base64Encode) e = id e :=
    fun e he => base64_roundtrip e (h e he)
  rw [List.map_congr_left hmap, List.map_id]

/-- Witness for C8 at a concrete two-element array. -/
theorem C8_witness :
    (∀ e ∈ [[104, 105], [33]], ∀ b ∈ e, b < 256) ∧
    ((extractLargeEvents true [[104, 105], [33]]
      (fun _ => true)).2).map base64Decode = [[104, 105], [33]] :=
  ⟨by decide, C8_split_roundtrip [[104, 105], [33]] (by decide)⟩

/-! ### Raw POST body -/

/-- Comparing the first five bytes of the `ReadAll` slice (zero padded past
the body length) with the data flag is the same as asking whether the body
itself begins with the flag. -/
theorem take_five_backing_eq_iff (body : List Nat) :
    ((readAllBacking body).take 5 = dataFlag) ↔ body.take 5 = dataFlag := by
  unfold readAllBacking
  by_cases h5 : 5 ≤ body.length
  · rw [List.take_append_of_le_length h5]
  · have hshort : body.take 5 = body :=
      List.take_of_length_le (by omega)
    constructor
    · intro h
      exfalso
      rw [List.take_append_eq_append_take, hshort, List.take_replicate] at h
      rw [show min (5 - body.length) 512 = 5 - body.length by omega] at h
      have hL := congrArg List.getLast? h
      rw [List.getLast?_append_of_ne_nil _
        (by
          intro hnil
          have := congrArg List.length hnil
          simp at this
          omega)] at hL
      rw [List.getLast?_replicate, if_neg (by omega : ¬(5 - body.length = 0))]
        at hL
      simp [dataFlag] at hL
    · intro h
      exfalso
      have hlen := congrArg List.length h
      rw [hshort] at hlen
      simp [dataFlag] at hlen
      omega

/-- C9: on a POST whose parsed form has no data field, the raw-body path
never panics whatever the body length; the five flag bytes are stripped
(and bad_client set) exactly when the body begins with the literal data=
bytes; and the request answers 400 exactly when the resulting payload is
empty. -/
theorem C9_raw_body_any_length (body : List Nat) :
    (postRawBody body).isSome = true ∧
    postRawBody body =
      (if body.take 5 = dataFlag
       then some (true, body.drop 5,
         if body.drop 5 = [] then some 400 else none)
       else some (false, body, if body = [] then some 400 else none)) := by
  have hb : goSliceTake (readAllBacking body) 5 =
      some ((readAllBacking body).take 5) := by
    unfold goSliceTake
    rw [if_pos (by
      unfold readAllBacking
      rw [List.length_append, List.length_replicate]
      omega)]
  have hP : postRawBody body =
      (if (readAllBacking body).take 5 = dataFlag
       then some (true, body.drop 5,
         if body.drop 5 = [] then some 400 else none)
       else some (false, body, if body = [] then some 400 else none)) := by
    unfold postRawBody
    rw [hb]
  constructor
  · rw [hP]
    split <;> rfl
  · rw [hP]
    by_cases hd : (readAllBacking body).take 5 = dataFlag
    · rw [if_pos hd, if_pos ((take_five_backing_eq_iff body).mp hd)]
    · rw [if_neg hd,
        if_neg fun hc => hd ((take_five_backing_eq_iff body).mpr hc)]

end SpadeEdge
